import Mathlib

/-!
Verification of the kobomanager catalog-and-transfer engine.

This file shallowly embeds the program's core data model and operations:

* `Library.scan_library`, `Library.add_or_update_book`, `Library.connect`,
  `Library.get_all_books_with_details`, `Library.mark_book_as_read`
  (src/lib/library.py);
* `KoboDevice.book_exists_and_unread`, `KoboDevice.mark_book_as_read_in_kobo`
  (src/lib/kobodevice.py);
* `TransferManager.transfer_book`, `TransferManager.transfer_books`
  (src/lib/transfermanager.py).

Modelling conventions:

* Filesystem directories are lists of path components (`Dir := List String`);
  the Python code's `startswith` prefix test and `Path.relative_to` are
  modelled as component-list prefix test and drop.
* The sqlite `books` table is a list of `BookRec` rows in rowid order;
  `INSERT` appends, `UPDATE ... WHERE` maps over the rows.
* A directory walk (`os.walk` over every configured root) is a list of
  entries `(dir, name, ext)` in walk order, each entry pre-split at the last
  dot of the filename (so `ext` is dot-free).  Files listed by the walk
  exist on disk, so the code's `os.path.exists` re-check (a race guard) is
  always true and its else-branch is dead in this static model.
* Per-query sqlite failures (caught by `Library.execute_query`) are modelled
  by a `fail` flag threaded through the catalog operations: when it is set,
  every query returns its failure value and leaves the store unchanged.
* The device content database is a list of `(ContentID, ReadStatus)` rows;
  `ContentID` is the table's key, so lookup returns the first matching row.
* The SD card contents are a list of `(destination directory, file name)`
  pairs; writing an existing file overwrites it (no duplicate entries) and
  `os.remove` drops it.  Free space measurements (`os.statvfs`) are an
  oracle `spaceSeq : Nat → Nat` indexed by a measurement counter, so that
  successive measurements may differ (external space pressure).
-/

namespace Kobo

/-- A filesystem directory as a list of path components. -/
abbrev Dir := List String

/-- The scan/lookup identity key: `(file_path, file_name)` without the
extension (library.py uses this pair in its WHERE clauses). -/
abbrev Key := Dir × String

/-- A full `(file_path, file_name, file_extension)` triple, the storage level
uniqueness key of the `books` table. -/
abbrev Triple := Dir × String × String

/-- One row of the `books` table (library.py, `initialize` schema). -/
structure BookRec where
  file_path : Dir
  file_name : String
  file_extension : String
  read : Bool
  deleted : Bool
  transferable : Bool
deriving DecidableEq, Repr

/-- The `books` table in rowid order. -/
abbrev Catalog := List BookRec

/-- One file met by the directory walk of `scan_library`: the `os.walk`
directory `root`, and the filename split as `name`.`ext`. -/
structure Entry where
  dir : Dir
  name : String
  ext : String
deriving DecidableEq, Repr

def Entry.key (e : Entry) : Key := (e.dir, e.name)

def Entry.triple (e : Entry) : Triple := (e.dir, e.name, e.ext)

def BookRec.key (r : BookRec) : Key := (r.file_path, r.file_name)

def BookRec.triple (r : BookRec) : Triple :=
  (r.file_path, r.file_name, r.file_extension)

/-- Python's `str.lower()` (character-wise lowering; kept transparent so
concrete runs evaluate inside proofs). -/
def strLower (s : String) : String := ⟨s.data.map Char.toLower⟩

/-- Python's `str.endswith` (character-wise suffix test). -/
def strEndsWith (s suff : String) : Bool := suff.data.isSuffixOf s.data

/-- `self.supported_formats` of library.py. -/
def supported_formats : List String :=
  [".epub", ".mobi", ".pdf", ".azw3", ".cbz", ".zip", ".rar"]

/-- The filename of a walk entry, as listed by `os.walk`. -/
def Entry.fileName (e : Entry) : String := e.name ++ "." ++ e.ext

/-- `file_lower.endswith(tuple(self.supported_formats))` of library.py. -/
def Entry.isSupported (e : Entry) : Bool :=
  supported_formats.any (fun f => strEndsWith (strLower e.fileName) f)

/-- `file_extension.lower() in [f[1:] for f in self.transferable_formats]`:
the configured transferable formats `tf` are kept dot-free here, matching
the net effect of the code's add-dot-then-strip-dot round trip. -/
def isTransferable (tf : List String) (ext : String) : Bool :=
  tf.contains (strLower ext)

/-- The triples of all rows of the catalog. -/
def triples (db : Catalog) : List Triple := db.map BookRec.triple

/-- `Library.add_or_update_book`: `INSERT OR IGNORE` on the full triple
(uniqueness constraint), and if the row already existed, `UPDATE books SET
deleted = FALSE, transferable = ? WHERE file_path = ? AND file_name = ?`
(note: the update key is `(file_path, file_name)` only).  With `fail` set
every query fails and the store is unchanged. -/
def add_or_update_book (fail : Bool) (db : Catalog) (e : Entry) (t : Bool) :
    Catalog :=
  if fail then db
  else if e.triple ∈ triples db then
    db.map (fun r =>
      if r.key = e.key then { r with deleted := false, transferable := t }
      else r)
  else
    db ++ [⟨e.dir, e.name, e.ext, false, false, t⟩]

/-- `UPDATE books SET deleted = TRUE WHERE file_path = ? AND file_name = ?`
(scan_library's soft-delete marking). -/
def mark_deleted (fail : Bool) (db : Catalog) (k : Key) : Catalog :=
  if fail then db
  else db.map (fun r => if r.key = k then { r with deleted := true } else r)

/-- `Library.get_all_books`: the set of `(file_path, file_name)` keys of the
catalog; an empty set when the query fails. -/
def get_all_books (fail : Bool) (db : Catalog) : List Key :=
  if fail then [] else (db.map BookRec.key).dedup

/-- The mutable state of `scan_library`'s walk loop: the evolving table, the
`all_books` set of not-yet-observed keys, and the `processed_books` set. -/
structure ScanSt where
  db : Catalog
  allBooks : List Key
  processed : List Key

/-- One iteration of `scan_library`'s file loop (library.py lines 130-168):
skip unsupported filenames, deduplicate on the `(root, name)` key, remove
the key from `all_books`, and insert or update the row.  (Walked files
exist on disk, so the `os.path.exists` else-branch is dead here.) -/
def scan_step (fail : Bool) (tf : List String) (s : ScanSt) (e : Entry) :
    ScanSt :=
  if e.isSupported then
    if e.key ∈ s.processed then s
    else
      { db := add_or_update_book fail s.db e (isTransferable tf e.ext),
        allBooks := s.allBooks.erase e.key,
        processed := e.key :: s.processed }
  else s

/-- `Library.scan_library`: walk all configured roots (the concatenated walk
is `walk`), then mark every remaining unobserved key deleted, and return
`True` (the function's only return statement). -/
def scan_library (fail : Bool) (tf : List String) (db : Catalog)
    (walk : List Entry) : Bool × Catalog :=
  let s := walk.foldl (scan_step fail tf) ⟨db, get_all_books fail db, []⟩
  (true, s.allBooks.foldl (mark_deleted fail) s.db)

/-- `Library.get_all_books_with_details`: `SELECT ... WHERE deleted = FALSE`
with an optional `AND transferable = TRUE`, in rowid order. -/
def get_all_books_with_details (db : Catalog) (onlyTransferable : Bool) :
    List Entry :=
  (db.filter (fun r => !r.deleted && (!onlyTransferable || r.transferable))).map
    (fun r => ⟨r.file_path, r.file_name, r.file_extension⟩)

/-- `Library.mark_book_as_read`: `UPDATE books SET read = TRUE` keyed by the
full `(file_path, file_name, file_extension)` triple. -/
def mark_book_as_read (db : Catalog) (fp : Dir) (name ext : String) :
    Catalog :=
  db.map (fun r =>
    if r.triple = (fp, name, ext) then { r with read := true } else r)

/-- The environment `Library.connect` runs against: whether the store's
directory exists or can be created, whether the store file exists, whether
`sqlite3.connect` succeeds, and whether the schema-creating queries of
`initialize` succeed. -/
structure ConnEnv where
  dirExists : Bool
  dirCreatable : Bool
  dbExists : Bool
  openOk : Bool
  schemaOk : Bool
deriving DecidableEq, Repr

/-- The observable outcome of a Python call: an uncaught exception, or a
returned boolean. -/
inductive PyResult where
  | raised
  | ret (b : Bool)
deriving DecidableEq, Repr

/-- `Library.connect`: `os.makedirs` when the store directory is missing
(its `OSError` is NOT caught: the surrounding handler catches only
`sqlite3.Error`), then `sqlite3.connect` (errors caught, `return False`),
then schema creation when the store file is new (query failures make
`initialize`, hence `connect`, `return False`). -/
def connect (e : ConnEnv) : PyResult :=
  if !e.dirExists && !e.dirCreatable then .raised
  else if !e.openOk then .ret false
  else if !e.dbExists && !e.schemaOk then .ret false
  else .ret true

/-- The `for lib_path in library.library_paths: if file_path.startswith(...)`
first-match root resolution shared by kobodevice.py and transfermanager.py. -/
def find_correct_library_path (paths : List Dir) (fp : Dir) : Option Dir :=
  paths.find? (fun p => p.isPrefixOf fp)

/-- `str(Path(file_path).relative_to(root))`: "." for the root itself,
otherwise the components joined by "/". -/
def relPathString (rel : List String) : String :=
  if rel = [] then "." else String.intercalate "/" rel

/-- The content identifier
`f"file:///mnt/sd/kobomanager/{relative_path}/{file_name}.{file_extension}"`. -/
def content_id (rel : List String) (name ext : String) : String :=
  "file:///mnt/sd/kobomanager/" ++ relPathString rel ++ "/" ++ name ++ "." ++ ext

/-- `SELECT ReadStatus FROM content WHERE ContentID = ?` on the device
database (`ContentID` is the table's key, so the first match is the row). -/
def lookupReadStatus (ddb : List (String × Int)) (cid : String) :
    Option Int :=
  (ddb.find? (fun row => decide (row.1 = cid))).map (fun row => row.2)

/-- `KoboDevice.book_exists_and_unread`: resolve the library root (returning
False when none matches), build the content identifier, and return whether
a row exists with `ReadStatus == 0`. -/
def book_exists_and_unread (paths : List Dir) (ddb : List (String × Int))
    (fp : Dir) (name ext : String) : Bool :=
  match find_correct_library_path paths fp with
  | none => false
  | some p =>
    match lookupReadStatus ddb (content_id (fp.drop p.length) name ext) with
    | some s => decide (s = 0)
    | none => false

/-- A file stored on the SD card: its destination directory and its name
relative to that directory (archive members keep their member path here,
mirroring `os.path.join(destination_dir, member)`). -/
abbrev SdFile := Dir × String

/-- Writing a file: an overwrite leaves the listing unchanged, a new file is
appended. -/
def writeFile (sd : List SdFile) (f : SdFile) : List SdFile :=
  if f ∈ sd then sd else sd ++ [f]

/-- `os.remove`, tolerant of a missing file (the code guards it with
`os.path.exists` and only warns when absent). -/
def removeFile (sd : List SdFile) (f : SdFile) : List SdFile :=
  sd.filter (fun g => decide (g ≠ f))

/-- The state touched by the read-reconciliation pass: the library catalog
and the SD card contents. -/
structure RWorld where
  catalog : Catalog
  sdFiles : List SdFile
deriving DecidableEq, Repr

/-- `KoboDevice.mark_book_as_read_in_kobo`: resolve the root (no-op when
none matches), look up the content identifier; when present with a nonzero
`ReadStatus`, mark the catalog row read and delete the copy under
`sdcard_path/relative_path/name.ext`; otherwise do nothing. -/
def mark_book_as_read_in_kobo (paths : List Dir) (ddb : List (String × Int))
    (sdcardPath : Dir) (w : RWorld) (fp : Dir) (name ext : String) : RWorld :=
  match find_correct_library_path paths fp with
  | none => w
  | some p =>
    let rel := fp.drop p.length
    match lookupReadStatus ddb (content_id rel name ext) with
    | some s =>
      if s ≠ 0 then
        { catalog := mark_book_as_read w.catalog fp name ext,
          sdFiles :=
            removeFile w.sdFiles (sdcardPath ++ rel, name ++ "." ++ ext) }
      else w
    | none => w

/-- Read-only collaborators of `TransferManager.transfer_books`: the
configured roots, the SD working directory (`device_sdcard/kobomanager`),
the transferable formats, on-disk book sizes (`get_book_size`), archive
member listings (`none` models a corrupt archive raising
`BadZipFile`/`rarfile.Error`), the free-space measurement oracle, and the
device content database. -/
structure Env where
  libraryPaths : List Dir
  sdcardPath : Dir
  tf : List String
  sizes : Entry → Nat
  archives : Entry → Option (List String)
  spaceSeq : Nat → Nat
  ddb : List (String × Int)

/-- The mutable state threaded through the transfer pass: the catalog, the
SD card contents, and the measurement counter. -/
structure TWorld where
  catalog : Catalog
  sd : List SdFile
  clock : Nat
deriving DecidableEq, Repr

/-- `TransferManager.get_available_space`: one `os.statvfs` measurement. -/
def measureSpace (env : Env) (w : TWorld) : Nat × TWorld :=
  (env.spaceSeq w.clock, { w with clock := w.clock + 1 })

/-- `TransferManager.transfer_book`: extract the members of a `zip` or `rar`
container into the destination directory (failing when the archive is
corrupt), and copy any other format verbatim to
`destination_dir/name.ext`. -/
def transfer_book (env : Env) (w : TWorld) (fp : Dir) (name ext : String)
    (dest : Dir) : Bool × TWorld :=
  if strLower ext ∈ ["zip", "rar"] then
    match env.archives ⟨fp, name, ext⟩ with
    | some members =>
      (true,
        { w with sd := members.foldl (fun sd m => writeFile sd (dest, m)) w.sd })
    | none => (false, w)
  else
    (true, { w with sd := writeFile w.sd (dest, name ++ "." ++ ext) })

/-- Appending a book to its directory's group in the insertion-ordered
`books_by_directory` dict. -/
def groupInsert (gs : List (Dir × List Entry)) (d : Dir) (b : Entry) :
    List (Dir × List Entry) :=
  match gs with
  | [] => [(d, [b])]
  | (d0, bs) :: rest =>
    if d0 = d then (d0, bs ++ [b]) :: rest
    else (d0, bs) :: groupInsert rest d b

/-- The grouping loop of `transfer_books` (lines 122-140): resolve each
book's root (books matching no root are logged and dropped) and group by
destination directory `sdcard_path ++ relative_path`. -/
def group_books (env : Env) (books : List Entry) : List (Dir × List Entry) :=
  books.foldl
    (fun gs b =>
      match find_correct_library_path env.libraryPaths b.dir with
      | none => gs
      | some p => groupInsert gs (env.sdcardPath ++ b.dir.drop p.length) b)
    []

/-- The summed `get_book_size` of a directory's books. -/
def dirSize (env : Env) (bs : List Entry) : Nat :=
  bs.foldl (fun a b => a + env.sizes b) 0

/-- `min(get_book_size(b) for b in books_in_dir)` (groups are nonempty by
construction; the empty case never arises). -/
def minBookSize (env : Env) (bs : List Entry) : Nat :=
  match bs with
  | [] => 0
  | b :: rest => rest.foldl (fun a c => min a (env.sizes c)) (env.sizes b)

/-- What happened to one book inside the per-book loop. -/
inductive BookDecision where
  | skipUnread
  | skipSpace
  | skipFormat
  | copied
  | failed
deriving DecidableEq, Repr

/-- The trace record of one book: the values the gates saw and the outcome. -/
structure BookRes where
  book : Entry
  availAtBook : Nat
  size : Nat
  unread : Bool
  fmtOk : Bool
  decision : BookDecision
deriving DecidableEq, Repr

/-- The per-book loop of `transfer_books` (lines 166-199): skip when the
book is on the device unread; else skip when its size exceeds the current
capacity figure; else skip when its extension is not transferable; else
copy, and on success pause and re-measure capacity. -/
def run_books (env : Env) (dest : Dir) :
    List Entry → Nat → TWorld → Nat × TWorld × List BookRes
  | [], avail, w => (avail, w, [])
  | b :: bs, avail, w =>
    let unread := book_exists_and_unread env.libraryPaths env.ddb b.dir b.name b.ext
    let csize := env.sizes b
    let fmt := isTransferable env.tf b.ext
    if unread then
      let res := run_books env dest bs avail w
      (res.1, res.2.1, ⟨b, avail, csize, unread, fmt, .skipUnread⟩ :: res.2.2)
    else if avail < csize then
      let res := run_books env dest bs avail w
      (res.1, res.2.1, ⟨b, avail, csize, unread, fmt, .skipSpace⟩ :: res.2.2)
    else if !fmt then
      let res := run_books env dest bs avail w
      (res.1, res.2.1, ⟨b, avail, csize, unread, fmt, .skipFormat⟩ :: res.2.2)
    else
      let tb := transfer_book env w b.dir b.name b.ext dest
      if tb.1 then
        let m := measureSpace env tb.2
        let res := run_books env dest bs m.1 m.2
        (res.1, res.2.1, ⟨b, avail, csize, unread, fmt, .copied⟩ :: res.2.2)
      else
        let res := run_books env dest bs avail tb.2
        (res.1, res.2.1, ⟨b, avail, csize, unread, fmt, .failed⟩ :: res.2.2)

/-- What happened to one destination directory. -/
inductive DirDecision where
  | skipGate
  | skipMin (afterRefresh : Nat)
  | entered (afterRefresh : Nat) (books : List BookRes)
deriving DecidableEq, Repr

/-- The trace record of one directory: its summed and minimal sizes, the
capacity figure the directory gate compared against, the capacity figure
passed on to the next directory, and the outcome. -/
structure DirRes where
  dest : Dir
  dsize : Nat
  minSize : Nat
  availAtGate : Nat
  availAfter : Nat
  decision : DirDecision
deriving DecidableEq, Repr

/-- The directory loop of `transfer_books` (lines 142-199): gate on the
summed sizes against the current `available_space`, then re-measure, gate
on the smallest book, then run the per-book loop; `available_space` is
threaded on to the next directory in all cases. -/
def run_dirs (env : Env) :
    List (Dir × List Entry) → Nat → TWorld → Nat × TWorld × List DirRes
  | [], avail, w => (avail, w, [])
  | (dest, bs) :: gs, avail, w =>
    let ds := dirSize env bs
    let ms := minBookSize env bs
    if avail < ds then
      let res := run_dirs env gs avail w
      (res.1, res.2.1, ⟨dest, ds, ms, avail, avail, .skipGate⟩ :: res.2.2)
    else
      let m := measureSpace env w
      if m.1 < ms then
        let res := run_dirs env gs m.1 m.2
        (res.1, res.2.1, ⟨dest, ds, ms, avail, m.1, .skipMin m.1⟩ :: res.2.2)
      else
        let br := run_books env dest bs m.1 m.2
        let res := run_dirs env gs br.1 br.2.1
        (res.1, res.2.1,
          ⟨dest, ds, ms, avail, br.1, .entered m.1 br.2.2⟩ :: res.2.2)

/-- `TransferManager.transfer_books`: list the active transferable books,
snapshot the available space once, group by destination directory, and run
the directory loop.  Returns the final world and the decision trace. -/
def transfer_books (env : Env) (w : TWorld) : TWorld × List DirRes :=
  let books := get_all_books_with_details w.catalog true
  let m := measureSpace env w
  let gs := group_books env books
  let res := run_dirs env gs m.1 m.2
  (res.2.1, res.2.2)

/-- The walk entries the scan actually processes: supported files, first
per `(dir, name)` key in walk order (`pr` holds the keys already
processed), mirroring the `processed_books` deduplication. -/
def processed_entries : List Entry → List Key → List Entry
  | [], _ => []
  | e :: es, pr =>
    if e.isSupported then
      if e.key ∈ pr then processed_entries es pr
      else e :: processed_entries es (e.key :: pr)
    else processed_entries es pr

/-- Soft-delete a row. -/
def set_deleted (r : BookRec) : BookRec := { r with deleted := true }

/-- The net per-row effect of a whole scan on a pre-existing row of a
catalog with triples `ts`, given the processed entries `P`: the first
processed file sharing the row's key restores/refreshes the row when that
file's exact triple was already present (update branch), and leaves the
row alone when it was freshly inserted instead; a row whose key was not
observed is soft-deleted. -/
def scan_record (ts : List Triple) (tf : List String) (P : List Entry)
    (r : BookRec) : BookRec :=
  match P.find? (fun e => decide (e.key = r.key)) with
  | some e =>
    if e.triple ∈ ts then
      { r with deleted := false, transferable := isTransferable tf e.ext }
    else r
  | none => set_deleted r

/-- The per-row effect of a scan on a catalog that already contains every
processed file's triple (the situation from the second run onward): the
membership test of `scan_record` is always true, so the effect no longer
depends on the catalog's triples. -/
def scan_record_stable (tf : List String) (P : List Entry) (r : BookRec) :
    BookRec :=
  match P.find? (fun e => decide (e.key = r.key)) with
  | some e =>
    { r with deleted := false, transferable := isTransferable tf e.ext }
  | none => set_deleted r

/-- As `scan_record`, but before the final soft-delete marking (used to
state the walk-loop invariant): unobserved rows are still untouched. -/
def scan_record_mid (ts : List Triple) (tf : List String) (P : List Entry)
    (r : BookRec) : BookRec :=
  match P.find? (fun e => decide (e.key = r.key)) with
  | some e =>
    if e.triple ∈ ts then
      { r with deleted := false, transferable := isTransferable tf e.ext }
    else r
  | none => r

/-- The rows the scan inserts: processed entries whose exact triple was not
already present, in processing order, with default read/deleted flags. -/
def scan_new (ts : List Triple) (tf : List String) (P : List Entry) :
    Catalog :=
  (P.filter (fun e => decide (e.triple ∉ ts))).map
    (fun e => ⟨e.dir, e.name, e.ext, false, false, isTransferable tf e.ext⟩)

/-- Removing the processed keys from the `all_books` set, in processing
order. -/
def eraseKeys (P : List Entry) (l : List Key) : List Key :=
  P.foldl (fun l2 e => l2.erase e.key) l

/-- The catalog a successful scan produces: every pre-existing row mapped
through `scan_record`, followed by the freshly inserted rows. -/
def scan_result (tf : List String) (db : Catalog) (walk : List Entry) :
    Catalog :=
  db.map (scan_record (triples db) tf (processed_entries walk [])) ++
    scan_new (triples db) tf (processed_entries walk [])

/-- The capacity figures seen by the directory gates chain one into the
next: each directory's gate reads the value the previous directory passed
on (initially the pre-loop snapshot), not a fixed per-run snapshot. -/
def chainedB : Nat → List DirRes → Bool
  | _, [] => true
  | a, r :: rs => decide (r.availAtGate = a) && chainedB r.availAfter rs

/-- The per-book gates in the order the code applies them: the unread check
decides first; a size skip implies the unread check passed; a format skip
implies both the unread check and the size gate passed; a copy attempt
implies all three gates passed. -/
def bookResOrdered (r : BookRes) : Prop :=
  (r.unread = true ↔ r.decision = BookDecision.skipUnread) ∧
  (r.decision = BookDecision.skipSpace →
    r.unread = false ∧ r.availAtBook < r.size) ∧
  (r.decision = BookDecision.skipFormat →
    r.unread = false ∧ r.size ≤ r.availAtBook ∧ r.fmtOk = false) ∧
  (r.decision = BookDecision.copied ∨ r.decision = BookDecision.failed →
    r.unread = false ∧ r.size ≤ r.availAtBook ∧ r.fmtOk = true)

/-! ## Supporting lemmas -/

theorem removeFile_of_not_mem (sd : List SdFile) (f : SdFile) (h : f ∉ sd) :
    removeFile sd f = sd := by
  unfold removeFile
  induction sd with
  | nil => rfl
  | cons g gs ih =>
    simp only [List.mem_cons, not_or] at h
    simp only [List.filter_cons]
    rw [if_pos (by simpa using Ne.symm h.1), ih h.2]

theorem transfer_book_catalog (env : Env) (w : TWorld) (fp : Dir)
    (name ext : String) (dest : Dir) :
    (transfer_book env w fp name ext dest).2.catalog = w.catalog := by
  unfold transfer_book
  by_cases h : strLower ext ∈ ["zip", "rar"]
  · simp only [if_pos h]
    cases env.archives ⟨fp, name, ext⟩ <;> rfl
  · simp only [if_neg h]

theorem run_books_catalog (env : Env) (dest : Dir) :
    ∀ (bs : List Entry) (avail : Nat) (w : TWorld),
      (run_books env dest bs avail w).2.1.catalog = w.catalog := by
  intro bs
  induction bs with
  | nil => intro avail w; rfl
  | cons b bs ih =>
    intro avail w
    rw [run_books]
    split_ifs <;>
        simp only [ih, transfer_book_catalog, measureSpace] <;>
      split_ifs <;>
        simp only [ih, transfer_book_catalog, measureSpace]

theorem run_dirs_catalog (env : Env) :
    ∀ (gs : List (Dir × List Entry)) (avail : Nat) (w : TWorld),
      (run_dirs env gs avail w).2.1.catalog = w.catalog := by
  intro gs
  induction gs with
  | nil => intro avail w; rfl
  | cons g gs ih =>
    intro avail w
    obtain ⟨dest, bs⟩ := g
    rw [run_dirs]
    split_ifs <;>
        simp only [ih, run_books_catalog, measureSpace] <;>
      split_ifs <;>
        simp only [ih, run_books_catalog, measureSpace]

/-! ## Claim theorems -/

/-- Claim C10: `transfer_books` never mutates the library catalog: the
transfer pass only reads it, so every record and every field is unchanged
after the call. -/
theorem transfer_books_preserves_catalog (env : Env) (w : TWorld) :
    (transfer_books env w).1.catalog = w.catalog := by
  unfold transfer_books
  simp only [run_dirs_catalog, measureSpace]

/-- Claim C1, counterexample: a transferable `comic.cbz` book, with ample
capacity and a readable archive listing (`page1.png`), is placed on the SD
card as the container file `comic.cbz` itself; the destination does not
receive the archive's member files.  This contradicts the claim that the
expanded members, not the container, land in the destination directory. -/
theorem transfer_books_cbz_keeps_container :
    (transfer_books
      { libraryPaths := [["L"]], sdcardPath := ["SD"], tf := ["cbz"],
        sizes := fun _ => 10,
        archives := fun _ => some ["page1.png"],
        spaceSeq := fun _ => 1000,
        ddb := [] }
      { catalog := [⟨["L"], "comic", "cbz", false, false, true⟩],
        sd := [], clock := 0 }).1.sd = [(["SD"], "comic.cbz")] := by
  decide

/-- Claim C1 (amended): a book with extension `cbz` is not a container
format for `transfer_book` (only `zip` and `rar` are): it is copied
verbatim, placing the single file `name.cbz` in the destination
directory. -/
theorem transfer_book_cbz_copies_container (env : Env) (w : TWorld)
    (fp : Dir) (name : String) (dest : Dir) :
    transfer_book env w fp name "cbz" dest =
      (true, { w with sd := writeFile w.sd (dest, name ++ "." ++ "cbz") }) := by
  unfold transfer_book
  rw [if_neg (show strLower "cbz" ∉ (["zip", "rar"] : List String)
    from by decide)]

/-- Claim C5: `book_exists_and_unread` is true exactly when the device
content database has a row for the book's content identifier whose
`ReadStatus` is 0; a missing row and a nonzero status both give false. -/
theorem book_exists_and_unread_iff (paths : List Dir)
    (ddb : List (String × Int)) (fp : Dir) (name ext : String) (p : Dir)
    (h : find_correct_library_path paths fp = some p) :
    (book_exists_and_unread paths ddb fp name ext = true ↔
      lookupReadStatus ddb (content_id (fp.drop p.length) name ext) =
        some 0) := by
  unfold book_exists_and_unread
  simp only [h]
  cases hl : lookupReadStatus ddb (content_id (fp.drop p.length) name ext) with
  | none => simp [hl]
  | some s => simp [hl]

/-- Witness for C5: a concrete device row with status 0 is reported unread. -/
theorem book_exists_and_unread_iff_witness :
    find_correct_library_path [["L"]] ["L", "x"] = some ["L"] ∧
    (book_exists_and_unread [["L"]]
        [("file:///mnt/sd/kobomanager/x/b.epub", 0)] ["L", "x"] "b" "epub" =
          true ↔
      lookupReadStatus [("file:///mnt/sd/kobomanager/x/b.epub", 0)]
          (content_id ((["L", "x"] : Dir).drop (["L"] : Dir).length) "b"
            "epub") =
        some 0) :=
  ⟨by decide,
   book_exists_and_unread_iff [["L"]]
     [("file:///mnt/sd/kobomanager/x/b.epub", 0)] ["L", "x"] "b" "epub"
     ["L"] (by decide)⟩

/-- Claim C7: `mark_book_as_read_in_kobo` with a device row of nonzero
status marks the exact catalog record read and deletes the copy at
`sdcard_path/relative_path/name.ext` (an already-missing copy leaves the SD
contents unchanged, without failing); with no row, or a row still at status
0, the whole world is left unchanged. -/
theorem mark_book_as_read_in_kobo_spec (paths : List Dir)
    (ddb : List (String × Int)) (sdcardPath : Dir) (w : RWorld) (fp : Dir)
    (name ext : String) (p : Dir)
    (h : find_correct_library_path paths fp = some p) :
    (∀ s : Int,
      lookupReadStatus ddb (content_id (fp.drop p.length) name ext) =
          some s →
        s ≠ 0 →
        mark_book_as_read_in_kobo paths ddb sdcardPath w fp name ext =
            { catalog := mark_book_as_read w.catalog fp name ext,
              sdFiles := removeFile w.sdFiles
                (sdcardPath ++ fp.drop p.length, name ++ "." ++ ext) } ∧
          ((sdcardPath ++ fp.drop p.length, name ++ "." ++ ext) ∉ w.sdFiles →
            (mark_book_as_read_in_kobo paths ddb sdcardPath w fp name
                ext).sdFiles = w.sdFiles)) ∧
    (lookupReadStatus ddb (content_id (fp.drop p.length) name ext) = none →
      mark_book_as_read_in_kobo paths ddb sdcardPath w fp name ext = w) ∧
    (lookupReadStatus ddb (content_id (fp.drop p.length) name ext) =
        some 0 →
      mark_book_as_read_in_kobo paths ddb sdcardPath w fp name ext = w) := by
  unfold mark_book_as_read_in_kobo
  simp only [h]
  refine ⟨?_, ?_, ?_⟩
  · intro s hs hns
    simp only [hs, if_pos hns]
    exact ⟨trivial, fun hmem => removeFile_of_not_mem _ _ hmem⟩
  · intro hn
    simp only [hn]
  · intro h0
    simp [h0]

/-- Witness for C7: concrete read (status 2) and absent-row cases. -/
theorem mark_book_as_read_in_kobo_spec_witness :
    find_correct_library_path [["L"]] ["L", "x"] = some ["L"] ∧
    ((∀ s : Int,
      lookupReadStatus [("file:///mnt/sd/kobomanager/x/b.epub", 2)]
          (content_id ((["L", "x"] : Dir).drop (["L"] : Dir).length) "b"
            "epub") = some s →
        s ≠ 0 →
        mark_book_as_read_in_kobo [["L"]]
            [("file:///mnt/sd/kobomanager/x/b.epub", 2)] ["SD"]
            ⟨[⟨["L", "x"], "b", "epub", false, false, true⟩],
              [(["SD", "x"], "b.epub")]⟩ ["L", "x"] "b" "epub" =
            { catalog := mark_book_as_read
                [⟨["L", "x"], "b", "epub", false, false, true⟩] ["L", "x"]
                "b" "epub",
              sdFiles := removeFile [(["SD", "x"], "b.epub")]
                ((["SD"] : Dir) ++ (["L", "x"] : Dir).drop
                  (["L"] : Dir).length, "b" ++ "." ++ "epub") } ∧
          (((["SD"] : Dir) ++ (["L", "x"] : Dir).drop (["L"] : Dir).length,
              "b" ++ "." ++ "epub") ∉
              [((["SD", "x"] : Dir), "b.epub")] →
            (mark_book_as_read_in_kobo [["L"]]
                [("file:///mnt/sd/kobomanager/x/b.epub", 2)] ["SD"]
                ⟨[⟨["L", "x"], "b", "epub", false, false, true⟩],
                  [(["SD", "x"], "b.epub")]⟩ ["L", "x"] "b"
                "epub").sdFiles = [(["SD", "x"], "b.epub")])) ∧
      (lookupReadStatus [("file:///mnt/sd/kobomanager/x/b.epub", 2)]
          (content_id ((["L", "x"] : Dir).drop (["L"] : Dir).length) "b"
            "epub") = none →
        mark_book_as_read_in_kobo [["L"]]
            [("file:///mnt/sd/kobomanager/x/b.epub", 2)] ["SD"]
            ⟨[⟨["L", "x"], "b", "epub", false, false, true⟩],
              [(["SD", "x"], "b.epub")]⟩ ["L", "x"] "b" "epub" =
          ⟨[⟨["L", "x"], "b", "epub", false, false, true⟩],
            [(["SD", "x"], "b.epub")]⟩) ∧
      (lookupReadStatus [("file:///mnt/sd/kobomanager/x/b.epub", 2)]
          (content_id ((["L", "x"] : Dir).drop (["L"] : Dir).length) "b"
            "epub") = some 0 →
        mark_book_as_read_in_kobo [["L"]]
            [("file:///mnt/sd/kobomanager/x/b.epub", 2)] ["SD"]
            ⟨[⟨["L", "x"], "b", "epub", false, false, true⟩],
              [(["SD", "x"], "b.epub")]⟩ ["L", "x"] "b" "epub" =
          ⟨[⟨["L", "x"], "b", "epub", false, false, true⟩],
            [(["SD", "x"], "b.epub")]⟩)) :=
  ⟨by decide,
   mark_book_as_read_in_kobo_spec [["L"]]
     [("file:///mnt/sd/kobomanager/x/b.epub", 2)] ["SD"]
     ⟨[⟨["L", "x"], "b", "epub", false, false, true⟩],
       [(["SD", "x"], "b.epub")]⟩ ["L", "x"] "b" "epub" ["L"] (by decide)⟩

/-- Claim C9, counterexample: when the store's containing directory is
missing and cannot be created, `connect` raises (the `os.makedirs` OSError
is not caught by the `except sqlite3.Error` handler): it does not return a
failure value, even though the store also cannot be opened. -/
theorem connect_raises_on_dir_failure :
    connect
        { dirExists := false, dirCreatable := false, dbExists := false,
          openOk := false, schemaOk := false } =
      .raised ∧ PyResult.raised ≠ .ret false := by
  decide

/-- Claim C9 (amended): `connect` returns a failure value when the store
cannot be opened, or when schema creation on a fresh store fails — sqlite
errors are caught; but when the containing directory is missing and cannot
be created, the OS error propagates and `connect` raises instead of
returning. -/
theorem connect_spec (e : ConnEnv) :
    (e.openOk = false → e.dirExists = true ∨ e.dirCreatable = true →
      connect e = .ret false) ∧
    (e.dbExists = false → e.schemaOk = false →
      e.dirExists = true ∨ e.dirCreatable = true →
      connect e = .ret false) ∧
    (e.dirExists = false → e.dirCreatable = false →
      connect e = .raised) := by
  refine ⟨?_, ?_, ?_⟩
  · intro hok hd
    unfold connect
    have h2 : (!e.dirExists && !e.dirCreatable) = false := by
      rcases hd with h1 | h1 <;> simp [h1]
    simp [h2, hok]
  · intro hdb hsch hd
    unfold connect
    have h2 : (!e.dirExists && !e.dirCreatable) = false := by
      rcases hd with h1 | h1 <;> simp [h1]
    cases hok : e.openOk <;> simp [h2, hok, hdb, hsch]
  · intro hde hdc
    unfold connect
    simp [hde, hdc]

/-- Witness for C9 (amended): the store cannot be opened but the directory
exists, so `connect` returns False. -/
theorem connect_spec_witness :
    ((false : Bool) = false →
      (true : Bool) = true ∨ (false : Bool) = true →
      connect
          { dirExists := true, dirCreatable := false, dbExists := true,
            openOk := false, schemaOk := true } =
        .ret false) ∧
    connect
        { dirExists := true, dirCreatable := false, dbExists := true,
          openOk := false, schemaOk := true } =
      .ret false :=
  ⟨(connect_spec
      { dirExists := true, dirCreatable := false, dbExists := true,
        openOk := false, schemaOk := true }).1,
   (connect_spec
      { dirExists := true, dirCreatable := false, dbExists := true,
        openOk := false, schemaOk := true }).1 (by decide)
     (Or.inl (by decide))⟩

theorem scan_step_fail_db (tf : List String) (s : ScanSt) (e : Entry) :
    (scan_step true tf s e).db = s.db := by
  unfold scan_step
  split_ifs <;> simp [add_or_update_book]

theorem scan_fold_fail_db (tf : List String) :
    ∀ (walk : List Entry) (s : ScanSt),
      (walk.foldl (scan_step true tf) s).db = s.db := by
  intro walk
  induction walk with
  | nil => intro s; rfl
  | cons e es ih =>
    intro s
    rw [List.foldl_cons, ih, scan_step_fail_db]

theorem mark_fold_fail (ks : List Key) (db : Catalog) :
    ks.foldl (mark_deleted true) db = db := by
  induction ks generalizing db with
  | nil => rfl
  | cons k ks ih => rw [List.foldl_cons]; exact ih db

/-- Claim C3, counterexample: with the catalog store failing on every query
(a storage error occurs during the scan), `scan_library` still returns
success — it does not abort with a failure signal. -/
theorem scan_library_storage_error_returns_success :
    scan_library true ["epub"] [⟨["L"], "a", "epub", false, false, true⟩]
        [⟨["L"], "b", "epub"⟩] =
      (true, [⟨["L"], "a", "epub", false, false, true⟩]) ∧
    (true, [(⟨["L"], "a", "epub", false, false, true⟩ : BookRec)]).1 ≠
      false := by
  constructor
  · simp only [scan_library, scan_fold_fail_db, mark_fold_fail]
  · decide

/-- Claim C3 (amended): storage errors during `scan_library` are caught per
query and logged, never aborting the walk: `scan_library` returns success
unconditionally, and with a failing store every query is a no-op, so the
catalog is returned unchanged. -/
theorem scan_library_ignores_storage_errors (fail : Bool)
    (tf : List String) (db : Catalog) (walk : List Entry) :
    (scan_library fail tf db walk).1 = true ∧
    (fail = true → (scan_library fail tf db walk).2 = db) := by
  constructor
  · rfl
  · intro hf
    subst hf
    simp only [scan_library, scan_fold_fail_db, mark_fold_fail]

/-- Witness for C3 (amended): a concrete failing-store scan returns success
with the catalog unchanged. -/
theorem scan_library_ignores_storage_errors_witness :
    (scan_library true ["epub"] [⟨["L"], "a", "epub", true, false, true⟩]
        [⟨["L"], "c", "epub"⟩]).1 = true ∧
    (scan_library true ["epub"] [⟨["L"], "a", "epub", true, false, true⟩]
        [⟨["L"], "c", "epub"⟩]).2 =
      [⟨["L"], "a", "epub", true, false, true⟩] :=
  ⟨(scan_library_ignores_storage_errors true ["epub"]
      [⟨["L"], "a", "epub", true, false, true⟩] [⟨["L"], "c", "epub"⟩]).1,
   (scan_library_ignores_storage_errors true ["epub"]
      [⟨["L"], "a", "epub", true, false, true⟩] [⟨["L"], "c", "epub"⟩]).2
     rfl⟩

theorem run_dirs_gate_spec (env : Env) :
    ∀ (gs : List (Dir × List Entry)) (avail : Nat) (w : TWorld),
      chainedB avail (run_dirs env gs avail w).2.2 = true ∧
      ∀ r ∈ (run_dirs env gs avail w).2.2,
        (r.decision = DirDecision.skipGate ↔ r.availAtGate < r.dsize) ∧
        (r.decision = DirDecision.skipGate → r.availAfter = r.availAtGate) := by
  intro gs
  induction gs with
  | nil =>
    intro avail w
    exact ⟨rfl, fun r hr => absurd hr (List.not_mem_nil r)⟩
  | cons g gs ih =>
    intro avail w
    obtain ⟨dest, bs⟩ := g
    simp only [run_dirs]
    split_ifs with h1 h2
    · refine ⟨?_, ?_⟩
      · simp only [chainedB, Bool.and_eq_true, decide_eq_true_eq]
        exact ⟨by trivial, (ih avail w).1⟩
      · intro r hr
        rcases List.mem_cons.mp hr with rfl | hmem
        · exact ⟨⟨fun _ => h1, fun _ => rfl⟩, fun _ => rfl⟩
        · exact (ih avail w).2 r hmem
    · refine ⟨?_, ?_⟩
      · simp only [chainedB, Bool.and_eq_true, decide_eq_true_eq]
        exact ⟨by trivial, (ih _ _).1⟩
      · intro r hr
        rcases List.mem_cons.mp hr with rfl | hmem
        · exact ⟨⟨fun h => DirDecision.noConfusion h,
            fun hlt => absurd hlt h1⟩, fun h => DirDecision.noConfusion h⟩
        · exact (ih _ _).2 r hmem
    · refine ⟨?_, ?_⟩
      · simp only [chainedB, Bool.and_eq_true, decide_eq_true_eq]
        exact ⟨by trivial, (ih _ _).1⟩
      · intro r hr
        rcases List.mem_cons.mp hr with rfl | hmem
        · exact ⟨⟨fun h => DirDecision.noConfusion h,
            fun hlt => absurd hlt h1⟩, fun h => DirDecision.noConfusion h⟩
        · exact (ih _ _).2 r hmem

/-- Claim C2 (amended): each directory gate compares the directory's summed
book sizes against the running capacity figure — for the first directory
the pre-loop snapshot, and thereafter the value the previous directory
passed on (which reflects any re-measurements made there) — and skips the
whole directory, attempting no book and re-measuring nothing, exactly when
the sum exceeds that figure. -/
theorem transfer_books_gate_spec (env : Env) (w : TWorld) :
    chainedB (env.spaceSeq w.clock) (transfer_books env w).2 = true ∧
    ∀ r ∈ (transfer_books env w).2,
      (r.decision = DirDecision.skipGate ↔ r.availAtGate < r.dsize) ∧
      (r.decision = DirDecision.skipGate → r.availAfter = r.availAtGate) :=
  run_dirs_gate_spec env
    (group_books env (get_all_books_with_details w.catalog true))
    (env.spaceSeq w.clock) { w with clock := w.clock + 1 }

/-- Witness for C2 (amended): a concrete run whose one directory passes the
gate. -/
theorem transfer_books_gate_spec_witness :
    chainedB 100
        (transfer_books
          { libraryPaths := [["L"]], sdcardPath := ["SD"], tf := ["epub"],
            sizes := fun _ => 5, archives := fun _ => none,
            spaceSeq := fun _ => 100, ddb := [] }
          { catalog := [⟨["L", "d"], "b", "epub", false, false, true⟩],
            sd := [], clock := 0 }).2 = true ∧
    (⟨["SD", "d"], 5, 5, 100, 100,
        DirDecision.entered 100
          [⟨⟨["L", "d"], "b", "epub"⟩, 100, 5, false, true,
            BookDecision.copied⟩]⟩ : DirRes) ∈
      (transfer_books
          { libraryPaths := [["L"]], sdcardPath := ["SD"], tf := ["epub"],
            sizes := fun _ => 5, archives := fun _ => none,
            spaceSeq := fun _ => 100, ddb := [] }
          { catalog := [⟨["L", "d"], "b", "epub", false, false, true⟩],
            sd := [], clock := 0 }).2 ∧
    ((⟨["SD", "d"], 5, 5, 100, 100,
        DirDecision.entered 100
          [⟨⟨["L", "d"], "b", "epub"⟩, 100, 5, false, true,
            BookDecision.copied⟩]⟩ : DirRes).decision =
        DirDecision.skipGate ↔
      (100 : Nat) < 5) :=
  ⟨(transfer_books_gate_spec
      { libraryPaths := [["L"]], sdcardPath := ["SD"], tf := ["epub"],
        sizes := fun _ => 5, archives := fun _ => none,
        spaceSeq := fun _ => 100, ddb := [] }
      { catalog := [⟨["L", "d"], "b", "epub", false, false, true⟩],
        sd := [], clock := 0 }).1,
   by decide,
   ((transfer_books_gate_spec
      { libraryPaths := [["L"]], sdcardPath := ["SD"], tf := ["epub"],
        sizes := fun _ => 5, archives := fun _ => none,
        spaceSeq := fun _ => 100, ddb := [] }
      { catalog := [⟨["L", "d"], "b", "epub", false, false, true⟩],
        sd := [], clock := 0 }).2 _ (by decide)).1⟩

/-- Claim C2, counterexample: with measurements 100 (snapshot), then 50
(the refresh made inside the first directory), the second directory's sum
of 80 is within the snapshot (80 ≤ 100), yet the directory gate skips it:
the gate compared against the refreshed 50, not against the once-per-run
snapshot the claim describes. -/
theorem transfer_books_gate_not_snapshot :
    (transfer_books
        { libraryPaths := [["L"]], sdcardPath := ["SD"], tf := ["epub"],
          sizes := fun b => if b.name = "b1" then 60 else 80,
          archives := fun _ => none,
          spaceSeq := fun n => if n = 0 then 100 else 50,
          ddb := [] }
        { catalog := [⟨["L", "d1"], "b1", "epub", false, false, true⟩,
                      ⟨["L", "d2"], "b2", "epub", false, false, true⟩],
          sd := [], clock := 0 }).2 =
      [⟨["SD", "d1"], 60, 60, 100, 50, DirDecision.skipMin 50⟩,
       ⟨["SD", "d2"], 80, 80, 50, 50, DirDecision.skipGate⟩] ∧
    (⟨["SD", "d2"], 80, 80, 50, 50,
        DirDecision.skipGate⟩ : DirRes).decision = DirDecision.skipGate ∧
    (⟨["SD", "d2"], 80, 80, 50, 50,
        DirDecision.skipGate⟩ : DirRes).dsize ≤ 100 := by
  refine ⟨by decide, by decide, by decide⟩

theorem run_books_order_spec (env : Env) (dest : Dir) :
    ∀ (bs : List Entry) (avail : Nat) (w : TWorld),
      ∀ r ∈ (run_books env dest bs avail w).2.2, bookResOrdered r := by
  intro bs
  induction bs with
  | nil => intro avail w r hr; exact absurd hr (List.not_mem_nil r)
  | cons b bs ih =>
    intro avail w r hr
    simp only [run_books] at hr
    split_ifs at hr with h1 h2 h3 h4
    · rcases List.mem_cons.mp hr with rfl | hmem
      · exact ⟨⟨fun _ => rfl, fun _ => h1⟩,
          fun h => BookDecision.noConfusion h,
          fun h => BookDecision.noConfusion h,
          fun h => h.elim (fun hx => BookDecision.noConfusion hx)
            (fun hx => BookDecision.noConfusion hx)⟩
      · exact ih _ _ r hmem
    · rcases List.mem_cons.mp hr with rfl | hmem
      · exact ⟨⟨fun hu => absurd hu h1, fun hd => BookDecision.noConfusion hd⟩,
          fun _ => ⟨by simpa using h1, h2⟩,
          fun h => BookDecision.noConfusion h,
          fun h => h.elim (fun hx => BookDecision.noConfusion hx)
            (fun hx => BookDecision.noConfusion hx)⟩
      · exact ih _ _ r hmem
    · rcases List.mem_cons.mp hr with rfl | hmem
      · exact ⟨⟨fun hu => absurd hu h1, fun hd => BookDecision.noConfusion hd⟩,
          fun h => BookDecision.noConfusion h,
          fun _ => ⟨by simpa using h1, not_lt.mp h2, by simpa using h3⟩,
          fun h => h.elim (fun hx => BookDecision.noConfusion hx)
            (fun hx => BookDecision.noConfusion hx)⟩
      · exact ih _ _ r hmem
    · rcases List.mem_cons.mp hr with rfl | hmem
      · exact ⟨⟨fun hu => absurd hu h1, fun hd => BookDecision.noConfusion hd⟩,
          fun h => BookDecision.noConfusion h,
          fun h => BookDecision.noConfusion h,
          fun _ => ⟨by simpa using h1, not_lt.mp h2, by simpa using h3⟩⟩
      · exact ih _ _ r hmem
    · rcases List.mem_cons.mp hr with rfl | hmem
      · exact ⟨⟨fun hu => absurd hu h1, fun hd => BookDecision.noConfusion hd⟩,
          fun h => BookDecision.noConfusion h,
          fun h => BookDecision.noConfusion h,
          fun _ => ⟨by simpa using h1, not_lt.mp h2, by simpa using h3⟩⟩
      · exact ih _ _ r hmem

theorem run_dirs_books_order (env : Env) :
    ∀ (gs : List (Dir × List Entry)) (avail : Nat) (w : TWorld),
      ∀ dr ∈ (run_dirs env gs avail w).2.2,
        ∀ (a : Nat) (brs : List BookRes),
          dr.decision = DirDecision.entered a brs →
          ∀ r ∈ brs, bookResOrdered r := by
  intro gs
  induction gs with
  | nil => intro avail w dr hdr; exact absurd hdr (List.not_mem_nil dr)
  | cons g gs ih =>
    intro avail w dr hdr a brs hde r hr
    obtain ⟨dest, bs⟩ := g
    simp only [run_dirs] at hdr
    split_ifs at hdr with h1 h2
    · rcases List.mem_cons.mp hdr with rfl | hmem
      · exact DirDecision.noConfusion hde
      · exact ih _ _ dr hmem a brs hde r hr
    · rcases List.mem_cons.mp hdr with rfl | hmem
      · exact DirDecision.noConfusion hde
      · exact ih _ _ dr hmem a brs hde r hr
    · rcases List.mem_cons.mp hdr with rfl | hmem
      · injection hde with ha hbrs
        subst hbrs
        exact run_books_order_spec env dest bs _ _ r hr
      · exact ih _ _ dr hmem a brs hde r hr

/-- Claim C6 (amended): within `transfer_books`, each directory's per-book
gates run in the order unread-on-device, then size-versus-capacity, then
transferable-extension re-check: a size skip happens with the unread gate
passed, a format skip only after both the unread and the size gates
passed, and a copy attempt only after all three. -/
theorem transfer_books_book_gate_order (env : Env) (w : TWorld) :
    ∀ dr ∈ (transfer_books env w).2,
      ∀ (a : Nat) (brs : List BookRes),
        dr.decision = DirDecision.entered a brs →
        ∀ r ∈ brs, bookResOrdered r :=
  run_dirs_books_order env
    (group_books env (get_all_books_with_details w.catalog true))
    (env.spaceSeq w.clock) { w with clock := w.clock + 1 }

/-- Witness for C6 (amended): a concrete entered directory whose one book
passed every gate and was copied. -/
theorem transfer_books_book_gate_order_witness :
    (⟨["SD", "d"], 5, 5, 100, 100,
        DirDecision.entered 100
          [⟨⟨["L", "d"], "b", "epub"⟩, 100, 5, false, true,
            BookDecision.copied⟩]⟩ : DirRes) ∈
      (transfer_books
          { libraryPaths := [["L"]], sdcardPath := ["SD"], tf := ["epub"],
            sizes := fun _ => 5, archives := fun _ => none,
            spaceSeq := fun _ => 100, ddb := [] }
          { catalog := [⟨["L", "d"], "b", "epub", false, false, true⟩],
            sd := [], clock := 0 }).2 ∧
    bookResOrdered
      ⟨⟨["L", "d"], "b", "epub"⟩, 100, 5, false, true,
        BookDecision.copied⟩ :=
  ⟨by decide,
   transfer_books_book_gate_order
     { libraryPaths := [["L"]], sdcardPath := ["SD"], tf := ["epub"],
       sizes := fun _ => 5, archives := fun _ => none,
       spaceSeq := fun _ => 100, ddb := [] }
     { catalog := [⟨["L", "d"], "b", "epub", false, false, true⟩],
       sd := [], clock := 0 }
     ⟨["SD", "d"], 5, 5, 100, 100,
       DirDecision.entered 100
         [⟨⟨["L", "d"], "b", "epub"⟩, 100, 5, false, true,
           BookDecision.copied⟩]⟩
     (by decide) 100
     [⟨⟨["L", "d"], "b", "epub"⟩, 100, 5, false, true,
       BookDecision.copied⟩]
     rfl
     ⟨⟨["L", "d"], "b", "epub"⟩, 100, 5, false, true, BookDecision.copied⟩
     (by decide)⟩

/-- Claim C6, counterexample: book `b2.mobi` (extension not transferable,
size 70 over the current capacity 50, not unread on the device) is skipped
by the size gate, not the format gate: the code evaluates the size gate
before the transferable-extension re-check, while the claim puts the
format re-check second and the size gate last. -/
theorem transfer_books_size_gate_before_format :
    (transfer_books
        { libraryPaths := [["L"]], sdcardPath := ["SD"], tf := ["epub"],
          sizes := fun b => if b.name = "b1" then 10 else 70,
          archives := fun _ => none,
          spaceSeq := fun n => if n = 0 then 100 else if n = 1 then 60 else 50,
          ddb := [] }
        { catalog := [⟨["L", "d"], "b1", "epub", false, false, true⟩,
                      ⟨["L", "d"], "b2", "mobi", false, false, true⟩],
          sd := [], clock := 0 }).2 =
      [⟨["SD", "d"], 80, 10, 100, 50,
        DirDecision.entered 60
          [⟨⟨["L", "d"], "b1", "epub"⟩, 60, 10, false, true,
            BookDecision.copied⟩,
           ⟨⟨["L", "d"], "b2", "mobi"⟩, 50, 70, false, false,
            BookDecision.skipSpace⟩]⟩] ∧
    (⟨⟨["L", "d"], "b2", "mobi"⟩, 50, 70, false, false,
        BookDecision.skipSpace⟩ : BookRes).unread = false ∧
    (⟨⟨["L", "d"], "b2", "mobi"⟩, 50, 70, false, false,
        BookDecision.skipSpace⟩ : BookRes).fmtOk = false ∧
    (⟨⟨["L", "d"], "b2", "mobi"⟩, 50, 70, false, false,
        BookDecision.skipSpace⟩ : BookRes).decision ≠
      BookDecision.skipFormat := by
  refine ⟨by decide, by decide, by decide, by decide⟩

theorem rec_key_eq_of_triple_eq {r : BookRec} {e : Entry}
    (h : r.triple = e.triple) : r.key = e.key := by
  cases r; cases e
  simp only [BookRec.triple, Entry.triple, Prod.mk.injEq] at h
  simp [BookRec.key, Entry.key, h.1, h.2.1]

theorem entry_key_eq_of_triple_eq {e1 e2 : Entry}
    (h : e1.triple = e2.triple) : e1.key = e2.key := by
  cases e1; cases e2
  simp only [Entry.triple, Prod.mk.injEq] at h
  simp [Entry.key, h.1, h.2.1]

theorem processed_entries_key_not_mem :
    ∀ (es : List Entry) (pr : List Key) (e : Entry),
      e ∈ processed_entries es pr → e.key ∉ pr := by
  intro es
  induction es with
  | nil => intro pr e h; exact absurd h (List.not_mem_nil e)
  | cons f fs ih =>
    intro pr e h
    rw [processed_entries] at h
    split_ifs at h with h1 h2
    · exact ih pr e h
    · rcases List.mem_cons.mp h with rfl | hm
      · exact h2
      · intro hk
        exact ih _ e hm (List.mem_cons_of_mem _ hk)
    · exact ih pr e h

theorem scan_record_mid_key (ts : List Triple) (tf : List String)
    (P : List Entry) (r : BookRec) :
    (scan_record_mid ts tf P r).key = r.key := by
  unfold scan_record_mid
  cases P.find? (fun e => decide (e.key = r.key)) with
  | none => rfl
  | some e => by_cases he : e.triple ∈ ts <;> simp [he, BookRec.key]

theorem map_scan_record_mid_nil (ts : List Triple) (tf : List String)
    (db : Catalog) : db.map (scan_record_mid ts tf []) = db := by
  induction db with
  | nil => rfl
  | cons r rs ih => rw [List.map_cons, ih]; rfl

theorem triples_append (d1 d2 : Catalog) :
    triples (d1 ++ d2) = triples d1 ++ triples d2 := by
  simp [triples]

theorem triples_map_of_triple_eq (db : Catalog) (f : BookRec → BookRec)
    (hf : ∀ r, (f r).triple = r.triple) :
    triples (db.map f) = triples db := by
  simp only [triples, List.map_map]
  exact List.map_congr_left (fun r _ => hf r)

theorem scan_record_mid_of_find_some (ts : List Triple) (tf : List String)
    (P : List Entry) (r : BookRec) (e : Entry)
    (hf : P.find? (fun x => decide (x.key = r.key)) = some e) :
    scan_record_mid ts tf P r =
      if e.triple ∈ ts then
        { r with deleted := false, transferable := isTransferable tf e.ext }
      else r := by
  unfold scan_record_mid
  rw [hf]

theorem scan_record_mid_of_find_none (ts : List Triple) (tf : List String)
    (P : List Entry) (r : BookRec)
    (hf : P.find? (fun x => decide (x.key = r.key)) = none) :
    scan_record_mid ts tf P r = r := by
  unfold scan_record_mid
  rw [hf]

theorem scan_record_mid_of_not_key (ts : List Triple) (tf : List String)
    (P : List Entry) (r : BookRec) (h : ∀ x ∈ P, x.key ≠ r.key) :
    scan_record_mid ts tf P r = r :=
  scan_record_mid_of_find_none ts tf P r
    (List.find?_eq_none.mpr fun x hx => by
      simp only [decide_eq_true_eq]
      exact h x hx)

theorem scan_record_mid_cons_eq (ts : List Triple) (tf : List String)
    (P' : List Entry) (e : Entry) (r : BookRec) (hk : r.key = e.key) :
    scan_record_mid ts tf (e :: P') r =
      if e.triple ∈ ts then
        { r with deleted := false, transferable := isTransferable tf e.ext }
      else r :=
  scan_record_mid_of_find_some ts tf (e :: P') r e
    (List.find?_cons_of_pos _ (by simp [hk]))

theorem scan_record_mid_cons_ne (ts : List Triple) (tf : List String)
    (P' : List Entry) (e : Entry) (r : BookRec) (hk : r.key ≠ e.key) :
    scan_record_mid ts tf (e :: P') r = scan_record_mid ts tf P' r := by
  unfold scan_record_mid
  rw [List.find?_cons_of_neg _ (by
    simp only [decide_eq_true_eq]
    exact fun h => hk h.symm)]

theorem mid_update_pointwise (ts : List Triple) (tf : List String)
    (P' : List Entry) (e : Entry) (hm : e.triple ∈ ts)
    (hP' : ∀ x ∈ P', x.key ≠ e.key) (r : BookRec) :
    scan_record_mid ts tf P'
        (if r.key = e.key then
          { r with deleted := false, transferable := isTransferable tf e.ext }
        else r) =
      scan_record_mid ts tf (e :: P') r := by
  by_cases hk : r.key = e.key
  · rw [if_pos hk]
    rw [scan_record_mid_of_not_key ts tf P' _ (fun x hx => by
      rw [show ({ r with deleted := false, transferable := isTransferable tf e.ext } : BookRec).key = r.key
        from rfl, hk]
      exact hP' x hx)]
    rw [scan_record_mid_cons_eq ts tf P' e r hk, if_pos hm]
  · rw [if_neg hk, scan_record_mid_cons_ne ts tf P' e r hk]

theorem mid_insert_pointwise (ts : List Triple) (tf : List String)
    (P' : List Entry) (e : Entry) (hm : e.triple ∉ ts)
    (hP' : ∀ x ∈ P', x.key ≠ e.key) (r : BookRec) :
    scan_record_mid (ts ++ [e.triple]) tf P' r =
      scan_record_mid ts tf (e :: P') r := by
  by_cases hk : r.key = e.key
  · rw [scan_record_mid_of_not_key _ tf P' r (fun x hx => by
      rw [hk]; exact hP' x hx)]
    rw [scan_record_mid_cons_eq ts tf P' e r hk, if_neg hm]
  · rw [scan_record_mid_cons_ne ts tf P' e r hk]
    cases hf : P'.find? (fun x => decide (x.key = r.key)) with
    | none =>
      rw [scan_record_mid_of_find_none _ tf P' r hf,
        scan_record_mid_of_find_none ts tf P' r hf]
    | some x =>
      rw [scan_record_mid_of_find_some _ tf P' r x hf,
        scan_record_mid_of_find_some ts tf P' r x hf]
      have hxmem : x ∈ P' := List.mem_of_find?_eq_some hf
      have hxt : x.triple ≠ e.triple := by
        intro hq
        exact hP' x hxmem (entry_key_eq_of_triple_eq hq)
      simp [List.mem_append, hxt]

theorem scan_fold_spec (tf : List String) :
    ∀ (walk : List Entry) (db : Catalog) (ab pr : List Key),
      walk.foldl (scan_step false tf) ⟨db, ab, pr⟩ =
        ⟨db.map
            (scan_record_mid (triples db) tf (processed_entries walk pr)) ++
            scan_new (triples db) tf (processed_entries walk pr),
          eraseKeys (processed_entries walk pr) ab,
          ((processed_entries walk pr).map Entry.key).reverse ++ pr⟩ := by
  intro walk
  induction walk with
  | nil =>
    intro db ab pr
    rw [List.foldl_nil,
      show processed_entries [] pr = [] from rfl,
      map_scan_record_mid_nil]
    simp [scan_new, eraseKeys]
  | cons e es ih =>
    intro db ab pr
    rw [List.foldl_cons]
    by_cases h1 : e.isSupported
    · by_cases h2 : e.key ∈ pr
      · rw [show scan_step false tf ⟨db, ab, pr⟩ e = ⟨db, ab, pr⟩ from by
          simp [scan_step, h1, h2]]
        rw [ih]
        rw [show processed_entries (e :: es) pr = processed_entries es pr
          from by rw [processed_entries, if_pos h1, if_pos h2]]
      · rw [show scan_step false tf ⟨db, ab, pr⟩ e =
            ⟨add_or_update_book false db e (isTransferable tf e.ext),
              ab.erase e.key, e.key :: pr⟩ from by
          simp [scan_step, h1, h2]]
        rw [ih]
        rw [show processed_entries (e :: es) pr =
            e :: processed_entries es (e.key :: pr)
          from by rw [processed_entries, if_pos h1, if_neg h2]]
        have hP' : ∀ x ∈ processed_entries es (e.key :: pr),
            x.key ≠ e.key := by
          intro x hx hxe
          exact processed_entries_key_not_mem es (e.key :: pr) x hx
            (by rw [hxe]; exact List.mem_cons_self _ _)
        by_cases hm : e.triple ∈ triples db
        · rw [show add_or_update_book false db e (isTransferable tf e.ext) =
              db.map (fun r =>
                if r.key = e.key then
                  { r with deleted := false, transferable := isTransferable tf e.ext }
                else r) from by
            unfold add_or_update_book
            rw [if_neg (by simp), if_pos hm]]
          rw [show triples (db.map (fun r =>
              if r.key = e.key then
                { r with deleted := false, transferable := isTransferable tf e.ext }
              else r)) = triples db from
            triples_map_of_triple_eq db _ (fun r => by
              by_cases hk : r.key = e.key <;> simp [hk, BookRec.triple])]
          simp only [ScanSt.mk.injEq]
          refine ⟨?_, rfl, ?_⟩
          · rw [List.map_map]
            simp only [Function.comp_def]
            rw [List.map_congr_left (fun r _ =>
              mid_update_pointwise (triples db) tf _ e hm hP' r)]
            rw [show scan_new (triples db) tf
                (e :: processed_entries es (e.key :: pr)) =
                scan_new (triples db) tf (processed_entries es (e.key :: pr))
              from by simp [scan_new, List.filter_cons, hm]]
          · simp [List.append_assoc]
        · rw [show add_or_update_book false db e (isTransferable tf e.ext) =
              db ++ [⟨e.dir, e.name, e.ext, false, false,
                isTransferable tf e.ext⟩] from by
            unfold add_or_update_book
            rw [if_neg (by simp), if_neg hm]]
          rw [show triples (db ++ [⟨e.dir, e.name, e.ext, false, false,
              isTransferable tf e.ext⟩]) = triples db ++ [e.triple] from by
            rw [triples_append]; rfl]
          simp only [ScanSt.mk.injEq]
          refine ⟨?_, rfl, ?_⟩
          · rw [List.map_append, List.map_cons, List.map_nil]
            rw [scan_record_mid_of_not_key _ tf _
              (⟨e.dir, e.name, e.ext, false, false,
                isTransferable tf e.ext⟩ : BookRec)
              (fun x hx => hP' x hx)]
            rw [List.map_congr_left (fun r _ =>
              mid_insert_pointwise (triples db) tf _ e hm hP' r)]
            rw [show scan_new (triples db ++ [e.triple]) tf
                (processed_entries es (e.key :: pr)) =
                (List.filter (fun x => decide (x.triple ∉ triples db))
                    (processed_entries es (e.key :: pr))).map
                  (fun x => ⟨x.dir, x.name, x.ext, false, false,
                    isTransferable tf x.ext⟩) from by
              unfold scan_new
              congr 1
              apply List.filter_congr
              intro x hx
              have hxt : x.triple ≠ e.triple := fun hq =>
                hP' x hx (entry_key_eq_of_triple_eq hq)
              simp [List.mem_append, hxt]]
            rw [show scan_new (triples db) tf
                (e :: processed_entries es (e.key :: pr)) =
                (⟨e.dir, e.name, e.ext, false, false,
                  isTransferable tf e.ext⟩ : BookRec) ::
                (List.filter (fun x => decide (x.triple ∉ triples db))
                    (processed_entries es (e.key :: pr))).map
                  (fun x => ⟨x.dir, x.name, x.ext, false, false,
                    isTransferable tf x.ext⟩) from by
              unfold scan_new
              rw [List.filter_cons]
              simp [hm]]
            simp
          · simp [List.append_assoc]
    · rw [show scan_step false tf ⟨db, ab, pr⟩ e = ⟨db, ab, pr⟩ from by
        simp [scan_step, h1]]
      rw [ih]
      rw [show processed_entries (e :: es) pr = processed_entries es pr
        from by rw [processed_entries, if_neg h1]]

theorem scan_record_of_find_some (ts : List Triple) (tf : List String)
    (P : List Entry) (r : BookRec) (e : Entry)
    (hf : P.find? (fun x => decide (x.key = r.key)) = some e) :
    scan_record ts tf P r =
      if e.triple ∈ ts then
        { r with deleted := false, transferable := isTransferable tf e.ext }
      else r := by
  unfold scan_record
  rw [hf]

theorem scan_record_of_find_none (ts : List Triple) (tf : List String)
    (P : List Entry) (r : BookRec)
    (hf : P.find? (fun x => decide (x.key = r.key)) = none) :
    scan_record ts tf P r = set_deleted r := by
  unfold scan_record
  rw [hf]

theorem eraseKeys_eq_filter :
    ∀ (P : List Entry) (l : List Key), l.Nodup →
      eraseKeys P l =
        l.filter (fun k => decide (k ∉ P.map Entry.key)) := by
  intro P
  induction P with
  | nil =>
    intro l hl
    simp [eraseKeys]
  | cons e P ih =>
    intro l hl
    rw [show eraseKeys (e :: P) l = eraseKeys P (l.erase e.key) from rfl]
    rw [ih _ (hl.erase _)]
    rw [hl.erase_eq_filter]
    rw [List.filter_filter]
    apply List.filter_congr
    intro k hk
    by_cases hke : k = e.key <;> simp [hke, List.mem_cons, not_or]

theorem mark_fold_eq :
    ∀ (ks : List Key) (db : Catalog),
      ks.foldl (mark_deleted false) db =
        db.map (fun r => if r.key ∈ ks then set_deleted r else r) := by
  intro ks
  induction ks with
  | nil => intro db; simp
  | cons k ks ih =>
    intro db
    rw [List.foldl_cons]
    rw [show mark_deleted false db k =
        db.map (fun r => if r.key = k then set_deleted r else r) from by
      unfold mark_deleted set_deleted
      rw [if_neg (by simp)]]
    rw [ih, List.map_map]
    simp only [Function.comp_def]
    apply List.map_congr_left
    intro r _
    by_cases hk : r.key = k
    · rw [if_pos hk]
      rw [show (set_deleted r).key = r.key from rfl]
      by_cases hks : r.key ∈ ks
      · rw [if_pos hks, if_pos (List.mem_cons.mpr (Or.inr hks))]
        rfl
      · rw [if_neg hks, if_pos (List.mem_cons.mpr (Or.inl hk))]
    · rw [if_neg hk]
      by_cases hks : r.key ∈ ks
      · rw [if_pos hks, if_pos (List.mem_cons.mpr (Or.inr hks))]
      · rw [if_neg hks, if_neg (by
          intro hmem
          rcases List.mem_cons.mp hmem with h | h
          exacts [hk h, hks h])]

theorem scan_new_key_mem (ts : List Triple) (tf : List String)
    (P : List Entry) (x : BookRec) (hx : x ∈ scan_new ts tf P) :
    x.key ∈ P.map Entry.key := by
  unfold scan_new at hx
  obtain ⟨e, he, rfl⟩ := List.mem_map.mp hx
  exact List.mem_map_of_mem _ (List.mem_of_mem_filter he)

/-- The characterization of a successful scan: the resulting catalog is
every pre-existing row mapped through `scan_record` followed by the
freshly inserted rows, and the scan reports success. -/
theorem scan_library_spec (tf : List String) (db : Catalog)
    (walk : List Entry) :
    scan_library false tf db walk = (true, scan_result tf db walk) := by
  unfold scan_library
  rw [show get_all_books false db = (db.map BookRec.key).dedup from by
    unfold get_all_books
    rw [if_neg (by simp)]]
  rw [scan_fold_spec]
  rw [eraseKeys_eq_filter _ _ (List.nodup_dedup _)]
  simp only [mark_fold_eq]
  unfold scan_result
  rw [List.map_append]
  congr 1
  rw [List.map_map]
  simp only [Function.comp_def]
  congr 1
  · apply List.map_congr_left
    intro r hr
    rw [show (scan_record_mid (triples db) tf (processed_entries walk []) r).key
        = r.key from scan_record_mid_key _ _ _ _]
    by_cases hkP : r.key ∈ (processed_entries walk []).map Entry.key
    · rw [if_neg (by
        intro hmem
        have := (List.mem_filter.mp hmem).2
        simp only [decide_eq_true_eq] at this
        exact this hkP)]
      obtain ⟨x0, hx0, hkey0⟩ := List.mem_map.mp hkP
      have hsome : ((processed_entries walk []).find?
          (fun x => decide (x.key = r.key))).isSome :=
        List.find?_isSome.mpr ⟨x0, hx0, by simp [hkey0]⟩
      obtain ⟨e0, he0⟩ := Option.isSome_iff_exists.mp hsome
      rw [scan_record_mid_of_find_some _ tf _ r e0 he0,
        scan_record_of_find_some _ tf _ r e0 he0]
    · have hnone : (processed_entries walk []).find?
          (fun x => decide (x.key = r.key)) = none :=
        List.find?_eq_none.mpr fun x hx => by
          simp only [decide_eq_true_eq]
          intro hq
          exact hkP (hq ▸ List.mem_map_of_mem _ hx)
      rw [scan_record_mid_of_find_none _ tf _ r hnone,
        scan_record_of_find_none _ tf _ r hnone]
      rw [if_pos (List.mem_filter.mpr
        ⟨List.mem_dedup.mpr (List.mem_map_of_mem _ hr), by simpa using hkP⟩)]
  · rw [show (scan_new (triples db) tf (processed_entries walk [])).map
        (fun r => if r.key ∈ (db.map BookRec.key).dedup.filter
            (fun k => decide (k ∉ (processed_entries walk []).map Entry.key))
          then set_deleted r else r) =
        (scan_new (triples db) tf (processed_entries walk [])).map
          (fun r => r) from
      List.map_congr_left fun x hx => by
        rw [if_neg (by
          intro hmem
          have := (List.mem_filter.mp hmem).2
          simp only [decide_eq_true_eq] at this
          exact this (scan_new_key_mem _ tf _ x hx))]]
    simp

theorem scan_record_read (ts : List Triple) (tf : List String)
    (P : List Entry) (r : BookRec) : (scan_record ts tf P r).read = r.read := by
  cases hf : P.find? (fun x => decide (x.key = r.key)) with
  | none => rw [scan_record_of_find_none ts tf P r hf]; rfl
  | some e =>
    rw [scan_record_of_find_some ts tf P r e hf]
    by_cases hm : e.triple ∈ ts
    · rw [if_pos hm]
    · rw [if_neg hm]

theorem scan_record_triple (ts : List Triple) (tf : List String)
    (P : List Entry) (r : BookRec) :
    (scan_record ts tf P r).triple = r.triple := by
  cases hf : P.find? (fun x => decide (x.key = r.key)) with
  | none => rw [scan_record_of_find_none ts tf P r hf]; rfl
  | some e =>
    rw [scan_record_of_find_some ts tf P r e hf]
    by_cases hm : e.triple ∈ ts
    · rw [if_pos hm]; rfl
    · rw [if_neg hm]

theorem scan_record_stable_of_find_some (tf : List String) (P : List Entry)
    (r : BookRec) (e : Entry)
    (hf : P.find? (fun x => decide (x.key = r.key)) = some e) :
    scan_record_stable tf P r =
      { r with deleted := false, transferable := isTransferable tf e.ext } := by
  unfold scan_record_stable
  rw [hf]

theorem scan_record_stable_of_find_none (tf : List String) (P : List Entry)
    (r : BookRec)
    (hf : P.find? (fun x => decide (x.key = r.key)) = none) :
    scan_record_stable tf P r = set_deleted r := by
  unfold scan_record_stable
  rw [hf]

theorem scan_record_eq_stable (ts : List Triple) (tf : List String)
    (P : List Entry) (hall : ∀ e ∈ P, e.triple ∈ ts) (r : BookRec) :
    scan_record ts tf P r = scan_record_stable tf P r := by
  cases hf : P.find? (fun x => decide (x.key = r.key)) with
  | none =>
    rw [scan_record_of_find_none ts tf P r hf,
      scan_record_stable_of_find_none tf P r hf]
  | some e =>
    rw [scan_record_of_find_some ts tf P r e hf,
      if_pos (hall e (List.mem_of_find?_eq_some hf)),
      scan_record_stable_of_find_some tf P r e hf]

theorem scan_record_stable_triple (tf : List String) (P : List Entry)
    (r : BookRec) : (scan_record_stable tf P r).triple = r.triple := by
  cases hf : P.find? (fun x => decide (x.key = r.key)) with
  | none => rw [scan_record_stable_of_find_none tf P r hf]; rfl
  | some e => rw [scan_record_stable_of_find_some tf P r e hf]; rfl

theorem scan_record_stable_idem (tf : List String) (P : List Entry)
    (r : BookRec) :
    scan_record_stable tf P (scan_record_stable tf P r) =
      scan_record_stable tf P r := by
  cases hf : P.find? (fun x => decide (x.key = r.key)) with
  | none =>
    rw [scan_record_stable_of_find_none tf P r hf]
    rw [scan_record_stable_of_find_none tf P (set_deleted r) hf]
    rfl
  | some e =>
    rw [scan_record_stable_of_find_some tf P r e hf]
    rw [scan_record_stable_of_find_some tf P
      { r with deleted := false, transferable := isTransferable tf e.ext }
      e hf]

theorem scan_new_eq_nil (ts : List Triple) (tf : List String)
    (P : List Entry) (hall : ∀ e ∈ P, e.triple ∈ ts) :
    scan_new ts tf P = [] := by
  unfold scan_new
  rw [List.filter_eq_nil_iff.mpr (fun e he => by simp [hall e he])]
  rfl

theorem triples_scan_result (tf : List String) (db : Catalog)
    (walk : List Entry) :
    triples (scan_result tf db walk) =
      triples db ++
        triples (scan_new (triples db) tf (processed_entries walk [])) := by
  unfold scan_result
  rw [triples_append,
    triples_map_of_triple_eq db _ (fun r => scan_record_triple _ tf _ r)]

theorem processed_triple_mem_scan_result (tf : List String) (db : Catalog)
    (walk : List Entry) (e : Entry) (he : e ∈ processed_entries walk []) :
    e.triple ∈ triples (scan_result tf db walk) := by
  rw [triples_scan_result]
  by_cases hm : e.triple ∈ triples db
  · exact List.mem_append.mpr (Or.inl hm)
  · refine List.mem_append.mpr (Or.inr ?_)
    have hmem : (⟨e.dir, e.name, e.ext, false, false,
        isTransferable tf e.ext⟩ : BookRec) ∈
        scan_new (triples db) tf (processed_entries walk []) := by
      unfold scan_new
      exact List.mem_map_of_mem _ (List.mem_filter.mpr ⟨he, by simpa using hm⟩)
    simpa [triples, BookRec.triple, Entry.triple] using
      List.mem_map_of_mem BookRec.triple hmem

theorem scan_result_of_all_mem (tf : List String) (walk : List Entry)
    (s : Catalog)
    (hall : ∀ e ∈ processed_entries walk [], e.triple ∈ triples s) :
    scan_result tf s walk =
      s.map (scan_record_stable tf (processed_entries walk [])) := by
  unfold scan_result
  rw [scan_new_eq_nil _ tf _ hall, List.append_nil]
  exact List.map_congr_left fun r _ => scan_record_eq_stable _ tf _ hall r

/-- Claim C8, counterexample: catalog with a soft-deleted row
`(["L"], "a", zip)` and on-disk file `a.epub`: the first scan inserts the
epub row and leaves the zip row soft-deleted; the second scan, with no
filesystem change, additionally restores the zip row (its key now resolves
to an existing epub triple), so the catalog after the second run differs
from the catalog after the first. -/
theorem scan_library_not_idempotent :
    (scan_library false ["epub"]
        (scan_library false ["epub"]
            [⟨["L"], "a", "zip", false, true, false⟩]
            [⟨["L"], "a", "epub"⟩]).2
        [⟨["L"], "a", "epub"⟩]).2 ≠
      (scan_library false ["epub"]
          [⟨["L"], "a", "zip", false, true, false⟩]
          [⟨["L"], "a", "epub"⟩]).2 := by
  decide

/-- Claim C8 (amended): scanning stabilizes from the second run onward:
with no filesystem changes, a third run of `scan_library` produces exactly
the catalog of the second run (the first and second runs may differ, as
the counterexample shows, because a first run can insert a row whose
`(directory, name)` key restores other soft-deleted rows one run later). -/
theorem scan_library_stabilizes (tf : List String) (db : Catalog)
    (walk : List Entry) :
    (scan_library false tf
        (scan_library false tf (scan_library false tf db walk).2 walk).2
        walk).2 =
      (scan_library false tf (scan_library false tf db walk).2 walk).2 := by
  simp only [scan_library_spec]
  have hall1 : ∀ e ∈ processed_entries walk [],
      e.triple ∈ triples (scan_result tf db walk) :=
    fun e he => processed_triple_mem_scan_result tf db walk e he
  rw [scan_result_of_all_mem tf walk _ hall1]
  have htr : triples ((scan_result tf db walk).map
      (scan_record_stable tf (processed_entries walk []))) =
      triples (scan_result tf db walk) :=
    triples_map_of_triple_eq _ _ (fun r => scan_record_stable_triple tf _ r)
  have hall2 : ∀ e ∈ processed_entries walk [],
      e.triple ∈ triples ((scan_result tf db walk).map
        (scan_record_stable tf (processed_entries walk []))) :=
    fun e he => htr ▸ hall1 e he
  rw [scan_result_of_all_mem tf walk _ hall2]
  rw [List.map_map]
  simp only [Function.comp_def]
  exact List.map_congr_left fun r _ => scan_record_stable_idem tf _ r

/-- Claim C4, counterexample: record `(["L"], "a", epub)` is soft-deleted
and its file `a.epub` reappears on disk, but a new file `a.zip` with the same
`(directory, name)` key comes first in walk order: the scan processes
`a.zip`, deduplicates away `a.epub`, and the record stays `deleted = true`
after the scan, contradicting unconditional restoration. -/
theorem scan_no_restore_on_key_collision :
    ((scan_library false ["epub"]
        [⟨["L"], "a", "epub", false, true, true⟩]
        [⟨["L"], "a", "zip"⟩, ⟨["L"], "a", "epub"⟩]).2)[0]? =
      some ⟨["L"], "a", "epub", false, true, true⟩ := by
  decide

/-- Claim C4 (amended): a soft-deleted record whose exact file reappears on
disk is restored by the next scan — `deleted` becomes false and
`transferable` is refreshed from the file's extension — provided that file
is the first supported file with the record's `(directory, name)` key in
walk order; the record's `read` flag is unchanged, and no scan ever
changes the `read` flag (or identity) of any pre-existing record. -/
theorem scan_restores_deleted (tf : List String) (db : Catalog)
    (walk : List Entry) (i : Nat) (r : BookRec) (e0 : Entry)
    (hi : db[i]? = some r)
    (hdel : r.deleted = true)
    (hfind : (processed_entries walk []).find?
        (fun x => decide (x.key = r.key)) = some e0)
    (htrip : e0.triple = r.triple) :
    ((scan_library false tf db walk).2)[i]? =
      some { r with deleted := false, transferable := isTransferable tf e0.ext } ∧
    ∀ (j : Nat) (r2 : BookRec), db[j]? = some r2 →
      ∃ r3 : BookRec, ((scan_library false tf db walk).2)[j]? = some r3 ∧
        r3.read = r2.read ∧ r3.triple = r2.triple := by
  simp only [scan_library_spec]
  obtain ⟨hlen, hget⟩ := List.getElem?_eq_some_iff.mp hi
  constructor
  · unfold scan_result
    rw [List.getElem?_append_left (by
      rw [List.length_map]; exact hlen)]
    rw [List.getElem?_map, hi]
    have hmem : r ∈ db := hget ▸ List.getElem_mem hlen
    rw [Option.map_some']
    rw [scan_record_of_find_some _ tf _ r e0 hfind]
    rw [if_pos (by
      rw [htrip]
      exact List.mem_map_of_mem BookRec.triple hmem)]
  · intro j r2 hj
    obtain ⟨hlen2, hget2⟩ := List.getElem?_eq_some_iff.mp hj
    refine ⟨scan_record (triples db) tf (processed_entries walk []) r2,
      ?_, scan_record_read _ tf _ r2, scan_record_triple _ tf _ r2⟩
    unfold scan_result
    rw [List.getElem?_append_left (by
      rw [List.length_map]; exact hlen2)]
    rw [List.getElem?_map, hj, Option.map_some']

/-- Witness for C4 (amended): a concrete soft-deleted record whose file is
first in walk order is restored with `read` intact. -/
theorem scan_restores_deleted_witness :
    ([(⟨["L"], "b", "epub", true, true, false⟩ : BookRec)][0]? =
      some ⟨["L"], "b", "epub", true, true, false⟩) ∧
    (⟨["L"], "b", "epub", true, true, false⟩ : BookRec).deleted = true ∧
    ((processed_entries [⟨["L"], "b", "epub"⟩] []).find?
        (fun x => decide (x.key =
          (⟨["L"], "b", "epub", true, true, false⟩ : BookRec).key)) =
      some ⟨["L"], "b", "epub"⟩) ∧
    (⟨["L"], "b", "epub"⟩ : Entry).triple =
      (⟨["L"], "b", "epub", true, true, false⟩ : BookRec).triple ∧
    (((scan_library false ["epub"]
        [⟨["L"], "b", "epub", true, true, false⟩]
        [⟨["L"], "b", "epub"⟩]).2)[0]? =
      some ⟨["L"], "b", "epub", true, false,
        isTransferable ["epub"] (⟨["L"], "b", "epub"⟩ : Entry).ext⟩ ∧
    ∀ (j : Nat) (r2 : BookRec),
      ([(⟨["L"], "b", "epub", true, true, false⟩ : BookRec)])[j]? =
          some r2 →
      ∃ r3 : BookRec, ((scan_library false ["epub"]
          [⟨["L"], "b", "epub", true, true, false⟩]
          [⟨["L"], "b", "epub"⟩]).2)[j]? = some r3 ∧
        r3.read = r2.read ∧ r3.triple = r2.triple) :=
  ⟨by decide, by decide, by decide, by decide,
   scan_restores_deleted ["epub"]
     [⟨["L"], "b", "epub", true, true, false⟩]
     [⟨["L"], "b", "epub"⟩] 0
     ⟨["L"], "b", "epub", true, true, false⟩
     ⟨["L"], "b", "epub"⟩
     (by decide) (by decide) (by decide) (by decide)⟩

end Kobo
